import Mathlib

/-!
# Verification of the personal task/schedule manager

Shallow embedding of the repository's data model and request handlers:
the Postgres tables (drizzle schema) become Lean structures, the route
handlers and assistant tools become pure functions over an explicit
database state.  Conventions used throughout:

* ids are `Nat` (the store's `gen_random_uuid()` becomes a fresh-counter
  `nextId`); timestamps are `Int` (JS `Date.getTime()` milliseconds);
* a JS `Date` that may be absent or unparseable (`toDate` returning
  `undefined`) is `Option Int` with `none` for both;
* `jsonb` metadata is an opaque association list `Meta`;
* enum-valued request fields are modeled with the typed enums, so the
  route branch rejecting an invalid priority string is unrepresentable
  (no claim depends on it);
* the authentication collaborator is out of scope: every handler takes
  the already-authenticated caller's `userId`;
* store write failures are modeled by an `Oracle`: `oracle k = true`
  means the k-th write statement issued by the request fails.  A
  `db.transaction` rolls the state back to its entry value when its body
  throws; statements outside a transaction keep their effects.
-/

namespace PersonalAgent

/-- `task_priority` enum. -/
inductive TaskPriority
  | low | medium | high | urgent
deriving DecidableEq, Repr

/-- `task_status` enum. -/
inductive TaskStatusE
  | pending | completed | snoozed | cancelled
deriving DecidableEq, Repr

/-- Opaque jsonb map (`semantic_metadata`, plan `metadata`). -/
abbrev Meta := List (String × String)

/-- Row of the `task` table (task-schema.ts). -/
structure Task where
  id : Nat
  user_id : Nat
  title : String
  description : Option String := none
  priority : TaskPriority := .medium
  status : TaskStatusE := .pending
  due_date : Option Int := none
  scheduled_start : Option Int := none
  scheduled_end : Option Int := none
  raw_input : Option String := none
  parser_confidence : Int := 0
  semantic_metadata : Option Meta := some []
  created_at : Int := 0
  updated_at : Int := 0
  completed_at : Option Int := none
  deleted : Bool := false
deriving DecidableEq, Repr

/-- Row of the `plans` table (plan-schema). -/
structure Plan where
  id : Nat
  user_id : Nat
  title : String
  description : Option String := none
  metadata : Meta := []
  created_at : Int := 0
  updated_at : Int := 0
  is_template : Bool := false
deriving DecidableEq, Repr

/-- Row of the `plan_blocks` table (plan-schema). -/
structure PlanBlock where
  id : Nat
  plan_id : Nat
  task_id : Option Nat := none
  title : String
  notes : Option String := none
  start_ts : Int
  end_ts : Int
  location : Option String := none
  completed : Bool := false
  order_index : Int := 0
  created_at : Int := 0
deriving DecidableEq, Repr

/-- The relational store: the three tables the handlers touch, a
fresh-id counter for `gen_random_uuid()`, and the clock used by the
`defaultNow()` column defaults. -/
structure DB where
  tasks : List Task := []
  plans : List Plan := []
  planBlocks : List PlanBlock := []
  nextId : Nat := 0
  now : Int := 0
deriving DecidableEq, Repr

/-- Write-failure oracle: `oracle k` says the k-th write statement of
the request fails at the store (insert/update raising an error). -/
abbrev Oracle := Nat → Bool

/-- The always-succeeding store. -/
def noFail : Oracle := fun _ => false

/-- Every id stored so far is below the fresh counter. -/
def DB.WF (db : DB) : Prop :=
  (∀ t ∈ db.tasks, t.id < db.nextId) ∧
  (∀ p ∈ db.plans, p.id < db.nextId) ∧
  (∀ b ∈ db.planBlocks, b.id < db.nextId ∧ b.plan_id < db.nextId)

/-- Generic HTTP-ish response: status plus the error / message strings
the handlers put in the JSON body. -/
structure Resp where
  status : Nat
  error : Option String := none
  message : Option String := none
deriving DecidableEq, Repr

/-- Stable insertion into a list sorted by the boolean preorder `le`:
the SQL `ORDER BY` / JS `Array.prototype.sort` model. -/
def insertSorted (le : α → α → Bool) (a : α) : List α → List α
  | [] => [a]
  | b :: bs => if le a b then a :: b :: bs else b :: insertSorted le a bs

/-- Stable sort by `le` (insertion sort). -/
def sortRows (le : α → α → Bool) : List α → List α
  | [] => []
  | a :: as => insertSorted le a (sortRows le as)

/-! ## HTTP surface: `/api/tasks` (list + create) -/

namespace TasksRoute

/-- Query parameters of the task list endpoint, already numeric
(`Number(searchParams.get(..))` happened at the boundary). -/
structure ListParams where
  page : Int := 1
  limit : Int := 20
  sortBy : String := "id"
  sortOrder : String := "desc"
deriving DecidableEq, Repr

/-- Projected row `{ id, name, description }` of the list response. -/
structure ListRow where
  id : Nat
  name : String
  description : Option String
deriving DecidableEq, Repr

/-- The `orderBy` comparator: sort column is `task.title` for
`sortBy = "name"`, else `task.id`; direction per `sortOrder`. -/
def rowLE (sortBy sortOrder : String) (a b : ListRow) : Bool :=
  if sortOrder = "asc" then
    if sortBy = "name" then decide (a.name ≤ b.name) else decide (a.id ≤ b.id)
  else
    if sortBy = "name" then decide (b.name ≤ a.name) else decide (b.id ≤ a.id)

/-- List response: data page plus pagination meta. -/
structure ListResp where
  status : Nat
  data : List ListRow := []
  page : Int := 0
  limit : Int := 0
  hasNextPage : Bool := false
deriving DecidableEq, Repr

/-- `GET /api/tasks` (the variant whose `where` also filters
`task.deleted = false`): ownership-filtered, deleted-excluded,
sorted, paginated with a limit+1 probe. -/
def GET (db : DB) (userId : Nat) (p : ListParams) : ListResp :=
  let page := max 1 p.page
  let limit := min 100 (max 1 p.limit)
  let offset := ((page - 1) * limit).toNat
  let rows0 := db.tasks.filter fun t => t.user_id == userId && t.deleted == false
  let rows1 : List ListRow := rows0.map fun t => ⟨t.id, t.title, t.description⟩
  let sorted := sortRows (rowLE p.sortBy p.sortOrder) rows1
  let rows := (sorted.drop offset).take (limit.toNat + 1)
  let hasNextPage := rows.length > limit.toNat
  { status := 200,
    data := if hasNextPage then rows.take limit.toNat else rows,
    page := page, limit := limit, hasNextPage := hasNextPage }

/-- The second `GET /api/tasks` variant present in the source: same
query but with no `deleted` condition in the `where`. -/
def GETall (db : DB) (userId : Nat) (p : ListParams) : ListResp :=
  let page := max 1 p.page
  let limit := min 100 (max 1 p.limit)
  let offset := ((page - 1) * limit).toNat
  let rows0 := db.tasks.filter fun t => t.user_id == userId
  let rows1 : List ListRow := rows0.map fun t => ⟨t.id, t.title, t.description⟩
  let sorted := sortRows (rowLE p.sortBy p.sortOrder) rows1
  let rows := (sorted.drop offset).take (limit.toNat + 1)
  let hasNextPage := rows.length > limit.toNat
  { status := 200,
    data := if hasNextPage then rows.take limit.toNat else rows,
    page := page, limit := limit, hasNextPage := hasNextPage }

/-- Body of `POST /api/tasks` after JSON decoding (camelCase fields). -/
structure CreateTaskBody where
  title : String := ""
  description : Option String := none
  priority : Option TaskPriority := none
  status : Option TaskStatusE := none
  dueDate : Option Int := none
  scheduledStart : Option Int := none
  scheduledEnd : Option Int := none
  rawInput : Option String := none
  parserConfidence : Option Int := none
  semanticMetadata : Option Meta := none
deriving DecidableEq, Repr

/-- `createTaskSchema.safeParse` success: non-empty title, integer
confidence within 0..100, and the refinement
`!scheduledStart || !scheduledEnd || scheduledEnd > scheduledStart`. -/
def createTaskSchemaOk (v : CreateTaskBody) : Bool :=
  (v.title.length ≥ 1 : Bool)
  && (match v.parserConfidence with
      | some c => decide (0 ≤ c) && decide (c ≤ 100)
      | none => true)
  && (match v.scheduledStart, v.scheduledEnd with
      | some s, some e => decide (e > s)
      | _, _ => true)

/-- `POST /api/tasks`: validate with the zod schema, then insert with
the column defaults of task-schema.ts. -/
def POST (db : DB) (userId : Nat) (body : CreateTaskBody) : Resp × DB :=
  if createTaskSchemaOk body = false then
    ({ status := 400, error := some "Invalid request" }, db)
  else
    let row : Task :=
      { id := db.nextId, user_id := userId, title := body.title,
        description := body.description,
        priority := body.priority.getD .medium,
        status := body.status.getD .pending,
        due_date := body.dueDate,
        scheduled_start := body.scheduledStart,
        scheduled_end := body.scheduledEnd,
        raw_input := body.rawInput,
        parser_confidence := body.parserConfidence.getD 0,
        semantic_metadata := some (body.semanticMetadata.getD []),
        created_at := db.now, updated_at := db.now,
        completed_at := none, deleted := false }
    ({ status := 201 },
     { db with tasks := db.tasks ++ [row], nextId := db.nextId + 1 })

end TasksRoute

/-! ## HTTP surface: `/api/tasks/[task_id]` (get / soft-delete / patch) -/

namespace TaskIdRoute

/-- Response of the by-id GET: the full row on success. -/
structure GetResp where
  status : Nat
  task : Option Task := none
  error : Option String := none
deriving DecidableEq, Repr

/-- `GET /api/tasks/[task_id]`: select where id, owner and
`deleted = false` all match, `limit 1`. -/
def GET (db : DB) (userId tid : Nat) : GetResp :=
  let taskItem :=
    (db.tasks.filter fun t =>
      t.id == tid && t.user_id == userId && t.deleted == false).take 1
  match taskItem with
  | [] => { status := 404, error := some "Task not found" }
  | t :: _ => { status := 200, task := some t }

/-- `DELETE /api/tasks/[task_id]`: `update task set deleted = true
where id and user_id match`; 404 when `rowCount = 0`. -/
def DELETE (db : DB) (userId tid : Nat) : Resp × DB :=
  let rowCount := db.tasks.countP fun t => t.id == tid && t.user_id == userId
  let db' := { db with
    tasks := db.tasks.map fun t =>
      if t.id == tid && t.user_id == userId then { t with deleted := true } else t }
  if rowCount == 0 then
    ({ status := 404, error := some "Task not found or could not be deleted" }, db')
  else
    ({ status := 200, message := some "Task deleted successfully" }, db')

/-- Body of the PATCH after the route's per-field `typeof` / truthiness
filtering: `none` means the guard did not fire, so the column is left
out of the `set`.  `description`/`rawInput` admit an explicit `null`
(`some none`); the date fields are set only when truthy and parseable. -/
structure PatchBody where
  title : Option String := none
  description : Option (Option String) := none
  priority : Option TaskPriority := none
  status : Option TaskStatusE := none
  dueDate : Option Int := none
  scheduledStart : Option Int := none
  scheduledEnd : Option Int := none
  rawInput : Option (Option String) := none
  parserConfidence : Option Int := none
  semanticMetadata : Option Meta := none
deriving DecidableEq, Repr

/-- The `set` clause built by the PATCH handler: one update object
holding exactly the columns whose guard fired, applied to a row in a
single `UPDATE ... SET`.  A column not in the object keeps its value. -/
def applyPatch (b : PatchBody) (t : Task) : Task :=
  { t with
    title := b.title.getD t.title,
    description := match b.description with | some v => v | none => t.description,
    priority := b.priority.getD t.priority,
    status := b.status.getD t.status,
    due_date := match b.dueDate with | some v => some v | none => t.due_date,
    scheduled_start := match b.scheduledStart with | some v => some v | none => t.scheduled_start,
    scheduled_end := match b.scheduledEnd with | some v => some v | none => t.scheduled_end,
    raw_input := match b.rawInput with | some v => v | none => t.raw_input,
    parser_confidence := match b.parserConfidence with
      | some v => max 0 (min 100 v)
      | none => t.parser_confidence,
    semantic_metadata := match b.semanticMetadata with
      | some v => some v
      | none => t.semantic_metadata }

/-- `PATCH /api/tasks/[task_id]`: build the update map, update where
id and owner match, 404 when `rowCount = 0`. -/
def PATCH (db : DB) (userId tid : Nat) (body : PatchBody) : Resp × DB :=
  let rowCount := db.tasks.countP fun t => t.id == tid && t.user_id == userId
  let db' := { db with
    tasks := db.tasks.map fun t =>
      if t.id == tid && t.user_id == userId then applyPatch body t else t }
  if rowCount == 0 then
    ({ status := 404, error := some "Task not found or could not be updated" }, db')
  else
    ({ status := 200, message := some "Task updated successfully" }, db')

end TaskIdRoute

/-! ## Shared request shape of a block's nested `task` object

The HTTP plan route spells the fields snake_case, the assistant tools
camelCase (`dueDate`, `scheduledStart`, ...): the same data either way,
kept as one structure with the snake_case names. -/

structure BlockTaskReq where
  id : Option Nat := none
  title : Option String := none
  description : Option String := none
  priority : Option TaskPriority := none
  due_date : Option Int := none
  scheduled_start : Option Int := none
  scheduled_end : Option Int := none
  raw_input : Option String := none
  parser_confidence : Option Int := none
  semantic_metadata : Option Meta := none
deriving DecidableEq, Repr

/-- The inline task insert shared by the plan-creation and
block-addition paths: caller as owner, defaults per the source's
`values` literal (priority→medium, confidence clamped else 0,
metadata→empty map) and the column defaults of task-schema.ts. -/
def mkInlineTask (db : DB) (userId : Nat) (ttl : String) (t : BlockTaskReq) : Task :=
  { id := db.nextId, user_id := userId, title := ttl,
    description := t.description,
    priority := t.priority.getD .medium,
    status := .pending,
    due_date := t.due_date,
    scheduled_start := t.scheduled_start,
    scheduled_end := t.scheduled_end,
    raw_input := t.raw_input,
    parser_confidence :=
      match t.parser_confidence with
      | some c => max 0 (min 100 c)
      | none => 0,
    semantic_metadata := some (t.semantic_metadata.getD []),
    created_at := db.now, updated_at := db.now,
    completed_at := none, deleted := false }

/-! ## HTTP surface: `/api/plan` (create plan with nested blocks) -/

namespace PlanRoute

/-- One entry of the `blocks` array of a plan-creation request.
`start_ts`/`end_ts` are `none` when absent or unparseable (`toDate`
returned `undefined`). -/
structure BlockReq where
  title : Option String := none
  notes : Option String := none
  start_ts : Option Int := none
  end_ts : Option Int := none
  location : Option String := none
  order_index : Option Int := none
  task : Option BlockTaskReq := none
deriving DecidableEq, Repr

/-- `POST /api/plan` request body. -/
structure CreatePlanRequest where
  title : String := ""
  description : Option String := none
  is_template : Option Bool := none
  metadata : Option Meta := none
  blocks : List BlockReq := []
deriving DecidableEq, Repr

/-- The pre-transaction validation loop over the blocks: dates must be
present and parseable, and the handler errors only when
`end.getTime() < start.getTime()` (strict).  The branch rejecting an
invalid priority string is unrepresentable here because request
priorities are typed. -/
def validateBlocks : List BlockReq → Nat → Option String
  | [], _ => none
  | b :: rest, i =>
    match b.start_ts, b.end_ts with
    | some s, some e =>
      if e < s then some ("blocks[" ++ toString i ++ "]: end_ts must be after start_ts")
      else validateBlocks rest (i + 1)
    | _, _ => some ("blocks[" ++ toString i ++ "]: start_ts and end_ts must be valid dates")

/-- The per-block loop inside the transaction: resolve the task
reference (use a supplied id as-is, insert an inline task when a
non-empty title is supplied, else no task) and collect the block rows
to bulk-insert.  `wc` numbers the write statements for the oracle. -/
def buildBlocks (oracle : Oracle) (userId planId : Nat) :
    List BlockReq → Nat → DB → Nat → Except String (List PlanBlock × DB × Nat)
  | [], _, db, wc => .ok ([], db, wc)
  | b :: rest, i, db, wc =>
    let s := b.start_ts.getD 0
    let e := b.end_ts.getD 0
    let resolved : Except String (Option Nat × DB × Nat) :=
      match b.task with
      | some t =>
        match t.id with
        | some tid => .ok (some tid, db, wc)
        | none =>
          match t.title with
          | some ttl =>
            if ttl = "" then .ok (none, db, wc)
            else if oracle wc then .error "store error"
            else
              let newTask := mkInlineTask db userId ttl t
              .ok (some newTask.id,
                   { db with tasks := db.tasks ++ [newTask], nextId := db.nextId + 1 },
                   wc + 1)
          | none => .ok (none, db, wc)
      | none => .ok (none, db, wc)
    match resolved with
    | .error msg => .error msg
    | .ok (taskId, db1, wc1) =>
      let row : PlanBlock :=
        { id := 0,
          plan_id := planId, task_id := taskId,
          title := b.title.getD ((b.task.bind BlockTaskReq.title).getD "Untitled"),
          notes := b.notes,
          start_ts := s, end_ts := e,
          location := b.location, completed := false,
          order_index := b.order_index.getD (Int.ofNat i),
          created_at := 0 }
      match buildBlocks oracle userId planId rest (i + 1) db1 wc1 with
      | .error msg => .error msg
      | .ok (rows, db2, wc2) => .ok (row :: rows, db2, wc2)

/-- The bulk `insert(planBlocksTable).values(planBlockRows)`: the store
assigns the generated ids and `created_at` defaults. -/
def bulkInsertBlocks (db : DB) (rows : List PlanBlock) : DB :=
  let newRows := rows.enum.map fun p => { p.2 with id := db.nextId + p.1, created_at := db.now }
  { db with planBlocks := db.planBlocks ++ newRows, nextId := db.nextId + rows.length }

/-- Body of the `db.transaction` of plan creation.  Write 0 is the plan
insert; then the batch check of referenced task ids — whose `where`
carries only `inArray(taskTable.id, existingTaskIds)`, with no
`user_id` condition — then the per-block loop, then the bulk block
insert. -/
def POSTtx (oracle : Oracle) (db : DB) (userId : Nat) (body : CreatePlanRequest) :
    Except String (Nat × DB) :=
  if oracle 0 then .error "store error"
  else
    let planRow : Plan :=
      { id := db.nextId, user_id := userId, title := body.title,
        description := body.description,
        metadata := body.metadata.getD [],
        created_at := db.now, updated_at := db.now,
        is_template := body.is_template.getD false }
    let db1 : DB := { db with plans := db.plans ++ [planRow], nextId := db.nextId + 1 }
    let existingTaskIds := body.blocks.filterMap fun b => b.task.bind BlockTaskReq.id
    let missing : Option Nat :=
      if existingTaskIds.length > 0 then
        let ownedSet := (db1.tasks.filter fun t => existingTaskIds.contains t.id).map Task.id
        existingTaskIds.find? fun tId => !(ownedSet.contains tId)
      else none
    match missing with
    | some tId => .error ("Task " ++ toString tId ++ " not found or not owned by user")
    | none =>
      match buildBlocks oracle userId planRow.id body.blocks 0 db1 1 with
      | .error msg => .error msg
      | .ok (rows, db2, wc2) =>
        if oracle wc2 then .error "store error"
        else .ok (planRow.id, bulkInsertBlocks db2 rows)

/-- Response of plan creation (the nested payload reduced to the new
plan's id; the full shape is recovered by the by-id fetch). -/
structure CreateResp where
  status : Nat
  error : Option String := none
  planId : Option Nat := none
deriving DecidableEq, Repr

/-- `POST /api/plan`: early validation, then the transaction; a thrown
message starting with `"Task "` is mapped to 400, anything else to 500,
and in either case the transaction rolled back. -/
def POST (oracle : Oracle) (db : DB) (userId : Nat) (body : CreatePlanRequest) :
    CreateResp × DB :=
  if body.title = "" then ({ status := 400, error := some "title is required" }, db)
  else if body.blocks.isEmpty then
    ({ status := 400, error := some "blocks must be a non-empty array" }, db)
  else
    match validateBlocks body.blocks 0 with
    | some msg => ({ status := 400, error := some msg }, db)
    | none =>
      match POSTtx oracle db userId body with
      | .ok (planId, db') => ({ status := 201, planId := some planId }, db')
      | .error msg =>
        if msg.startsWith "Task " then ({ status := 400, error := some msg }, db)
        else ({ status := 500, error := some "Internal Server Error" }, db)

end PlanRoute

/-! ## HTTP surface: `/api/plan/[planId]` (by-id fetch, delete) -/

namespace PlanIdRoute

/-- One row of the fetched plan's `blocks` array: the block plus its
left-joined task (no `deleted` filter on that join). -/
structure FetchedBlock where
  block : PlanBlock
  task : Option Task
deriving DecidableEq, Repr

/-- The nested plan payload of the by-id fetch. -/
structure FetchedPlan where
  plan : Plan
  blocks : List FetchedBlock
deriving DecidableEq, Repr

/-- The JS `blocks.sort((a, b) => a.order_index - b.order_index)`. -/
def blockLE (a b : FetchedBlock) : Bool :=
  decide (a.block.order_index ≤ b.block.order_index)

/-- `GET /api/plan/[planId]`: ownership-scoped select of the plan,
left join of its blocks and their tasks, blocks sorted ascending by
`order_index`. -/
def GET (db : DB) (userId planId : Nat) : Resp × Option FetchedPlan :=
  match db.plans.find? (fun p => p.id == planId && p.user_id == userId) with
  | none => ({ status := 404, error := some "Plan not found" }, none)
  | some p =>
    let blocks := db.planBlocks.filter fun b => b.plan_id == p.id
    let fetched : List FetchedBlock := blocks.map fun b =>
      ⟨b, b.task_id.bind fun tid => db.tasks.find? fun t => t.id == tid⟩
    ({ status := 200 }, some ⟨p, sortRows blockLE fetched⟩)

/-- `DELETE /api/plan/[planId]`: ownership-scoped physical delete; the
store cascades to the plan's blocks (`ON DELETE cascade`). -/
def DELETE (db : DB) (userId planId : Nat) : Resp × DB :=
  let deletedRows := db.plans.filter fun p => p.id == planId && p.user_id == userId
  if deletedRows.isEmpty then
    ({ status := 404, error := some "Plan not found or could not be deleted" }, db)
  else
    ({ status := 200, message := some "Plan deleted successfully" },
     { db with
       plans := db.plans.filter fun p => !(p.id == planId && p.user_id == userId),
       planBlocks := db.planBlocks.filter fun b =>
         !(deletedRows.any fun p => p.id == b.plan_id) })

end PlanIdRoute

/-! ## HTTP surface: `POST /api/plan/[planId]/plan-block` (add block) -/

namespace PlanBlockRoute

/-- Request body of the block-addition endpoint (camelCase, with the
`startTs ?? start_ts` aliasing already resolved). -/
structure AddBlockBody where
  title : Option String := none
  notes : Option String := none
  startTs : Option Int := none
  endTs : Option Int := none
  location : Option String := none
  orderIndex : Option Int := none
  task : Option BlockTaskReq := none
deriving DecidableEq, Repr

/-- `POST /api/plan/[planId]/plan-block`: date validation, plan
ownership check, then — with no transaction — an optional inline task
insert followed by the block insert as two separate statements. -/
def POST (oracle : Oracle) (db : DB) (userId planId : Nat) (body : AddBlockBody) :
    Resp × DB :=
  match body.startTs, body.endTs with
  | some s, some e =>
    if e < s then
      ({ status := 400, error := some "endTs must be after startTs" }, db)
    else if !(db.plans.any fun p => p.id == planId && p.user_id == userId) then
      ({ status := 404, error := some "Plan not found" }, db)
    else
      let resolved : Except String (Option Nat × DB × Nat) :=
        match body.task with
        | some t =>
          match t.id with
          | some tid => .ok (some tid, db, 0)
          | none =>
            match t.title with
            | some ttl =>
              if ttl = "" then .ok (none, db, 0)
              else if oracle 0 then .error "store error"
              else
                let newTask := mkInlineTask db userId ttl t
                .ok (some newTask.id,
                     { db with tasks := db.tasks ++ [newTask], nextId := db.nextId + 1 },
                     1)
            | none => .ok (none, db, 0)
        | none => .ok (none, db, 0)
      match resolved with
      | .error _ => ({ status := 500, error := some "Internal Server Error" }, db)
      | .ok (taskId, db1, wc) =>
        if oracle wc then
          ({ status := 500, error := some "Internal Server Error" }, db1)
        else
          let row : PlanBlock :=
            { id := db1.nextId, plan_id := planId, task_id := taskId,
              title := body.title.getD ((body.task.bind BlockTaskReq.title).getD "Untitled"),
              notes := body.notes, start_ts := s, end_ts := e,
              location := body.location, completed := false,
              order_index := body.orderIndex.getD 0,
              created_at := db1.now }
          ({ status := 201 },
           { db1 with planBlocks := db1.planBlocks ++ [row], nextId := db1.nextId + 1 })
  | _, _ =>
    ({ status := 400,
       error := some "startTs and endTs are required and must be valid dates" }, db)

end PlanBlockRoute

/-! ## HTTP surface: `/api/plan/[planId]/plan-block/[blockId]` (get) -/

namespace BlockIdRoute

/-- Response of the by-id block fetch. -/
structure BlockGetResp where
  status : Nat
  block : Option PlanBlock := none
  error : Option String := none
deriving DecidableEq, Repr

/-- `GET .../plan-block/[blockId]`: inner join of the block with its
plan, constrained by block id, plan id and the plan's owner; 404 when
no row survives. -/
def GET (db : DB) (userId planId blockId : Nat) : BlockGetResp :=
  let rows := db.planBlocks.filter fun b =>
    b.id == blockId && b.plan_id == planId &&
      db.plans.any fun p => p.id == b.plan_id && p.user_id == userId
  match rows with
  | [] => { status := 404, error := some "Block not found" }
  | r :: _ => { status := 200, block := some r }

end BlockIdRoute

/-! ## Tool surface: the `aiTools` operations given to the model

Inputs are zod-validated before `execute` runs; a failed parse never
reaches the handler, modeled as an immediate error leaving the store
untouched.  The handlers throw plain `Error` messages, modeled with
`Except String`. -/

namespace aiTools

/-- `createTask` input (zod: non-empty title, confidence 0..100; no
constraint relating `scheduledStart` and `scheduledEnd`). -/
structure CreateTaskInput where
  title : String := ""
  description : Option String := none
  priority : Option TaskPriority := none
  status : Option TaskStatusE := none
  dueDate : Option Int := none
  scheduledStart : Option Int := none
  scheduledEnd : Option Int := none
  rawInput : Option String := none
  parserConfidence : Option Int := none
  semanticMetadata : Option Meta := none
deriving DecidableEq, Repr

/-- The `returning` projection of `createTask`. -/
structure AiTaskOut where
  id : Nat
  title : String
  description : Option String
  priority : TaskPriority
  status : TaskStatusE
deriving DecidableEq, Repr

/-- `aiTools.createTask`: insert with column defaults for the omitted
fields; dates pass through unchecked. -/
def createTask (db : DB) (userId : Nat) (input : CreateTaskInput) :
    Except String AiTaskOut × DB :=
  if input.title.length < 1 then (.error "invalid input", db)
  else
    let row : Task :=
      { id := db.nextId, user_id := userId, title := input.title,
        description := input.description,
        priority := input.priority.getD .medium,
        status := input.status.getD .pending,
        due_date := input.dueDate,
        scheduled_start := input.scheduledStart,
        scheduled_end := input.scheduledEnd,
        raw_input := input.rawInput,
        parser_confidence := input.parserConfidence.getD 0,
        semantic_metadata := some (input.semanticMetadata.getD []),
        created_at := db.now, updated_at := db.now,
        completed_at := none, deleted := false }
    (.ok ⟨row.id, row.title, row.description, row.priority, row.status⟩,
     { db with tasks := db.tasks ++ [row], nextId := db.nextId + 1 })

/-- `updateTask` input: a field is in the `values` map iff it was not
`undefined`; the nullable ones carry an explicit `null` as `some none`. -/
structure UpdateTaskInput where
  taskId : Nat := 0
  title : Option String := none
  description : Option (Option String) := none
  priority : Option TaskPriority := none
  status : Option TaskStatusE := none
  dueDate : Option (Option Int) := none
  scheduledStart : Option (Option Int) := none
  scheduledEnd : Option (Option Int) := none
  rawInput : Option (Option String) := none
  parserConfidence : Option Int := none
  semanticMetadata : Option (Option Meta) := none
deriving DecidableEq, Repr

/-- The `set(values)` of `updateTask`: one update object with exactly
the non-`undefined` fields, applied in a single `UPDATE ... SET`. -/
def applyUpdate (input : UpdateTaskInput) (t : Task) : Task :=
  { t with
    title := input.title.getD t.title,
    description := match input.description with | some v => v | none => t.description,
    priority := input.priority.getD t.priority,
    status := input.status.getD t.status,
    due_date := match input.dueDate with | some v => v | none => t.due_date,
    scheduled_start := match input.scheduledStart with | some v => v | none => t.scheduled_start,
    scheduled_end := match input.scheduledEnd with | some v => v | none => t.scheduled_end,
    raw_input := match input.rawInput with | some v => v | none => t.raw_input,
    parser_confidence := match input.parserConfidence with
      | some v => max 0 (min 100 v)
      | none => t.parser_confidence,
    semantic_metadata := match input.semanticMetadata with
      | some v => v
      | none => t.semantic_metadata }

/-- `aiTools.updateTask`: update where id and owner match; throws
`"Task not found"` when `rowCount = 0`. -/
def updateTask (db : DB) (userId : Nat) (input : UpdateTaskInput) :
    Except String Unit × DB :=
  let rowCount := db.tasks.countP fun t => t.id == input.taskId && t.user_id == userId
  let db' := { db with
    tasks := db.tasks.map fun t =>
      if t.id == input.taskId && t.user_id == userId then applyUpdate input t else t }
  if rowCount == 0 then (.error "Task not found", db')
  else (.ok (), db')

/-- `aiTools.deleteTask`: soft delete (sets `deleted = true`) where id
and owner match; throws `"Task not found"` when `rowCount = 0`. -/
def deleteTask (db : DB) (userId tid : Nat) : Except String Unit × DB :=
  let rowCount := db.tasks.countP fun t => t.id == tid && t.user_id == userId
  let db' := { db with
    tasks := db.tasks.map fun t =>
      if t.id == tid && t.user_id == userId then { t with deleted := true } else t }
  if rowCount == 0 then (.error "Task not found", db')
  else (.ok (), db')

/-- Row of the `listTasks` result. -/
structure AiListRow where
  id : Nat
  title : String
  description : Option String
  status : TaskStatusE
  priority : TaskPriority
deriving DecidableEq, Repr

/-- `aiTools.listTasks`: owner-scoped, excludes deleted, limited. -/
def listTasks (db : DB) (userId : Nat) (limit : Nat) :
    Except String (List AiListRow) :=
  let rows :=
    ((db.tasks.filter fun t => t.user_id == userId && t.deleted == false).map
      fun t => AiListRow.mk t.id t.title t.description t.status t.priority).take limit
  .ok rows

/-- One entry of `createPlan`'s `blocks` (zod guarantees parseable
`startTs`/`endTs`, so they are plain `Int` here). -/
structure CreatePlanBlock where
  title : Option String := none
  notes : Option String := none
  startTs : Int := 0
  endTs : Int := 0
  location : Option String := none
  orderIndex : Option Int := none
  task : Option BlockTaskReq := none
deriving DecidableEq, Repr

/-- `createPlan` input. -/
structure CreatePlanInput where
  title : String := ""
  description : Option String := none
  isTemplate : Option Bool := none
  metadata : Option Meta := none
  blocks : List CreatePlanBlock := []
deriving DecidableEq, Repr

/-- The per-block loop of the tool's `createPlan` transaction: a
supplied task id is used as-is with no existence or ownership check,
an inline title inserts a task, and there is no start/end validation
anywhere on this path. -/
def buildBlocksTool (oracle : Oracle) (userId planId : Nat) :
    List CreatePlanBlock → Nat → DB → Nat → Except String (List PlanBlock × DB × Nat)
  | [], _, db, wc => .ok ([], db, wc)
  | b :: rest, i, db, wc =>
    let resolved : Except String (Option Nat × DB × Nat) :=
      match b.task with
      | some t =>
        match t.id with
        | some tid => .ok (some tid, db, wc)
        | none =>
          match t.title with
          | some ttl =>
            if ttl = "" then .ok (none, db, wc)
            else if oracle wc then .error "store error"
            else
              let newTask := mkInlineTask db userId ttl t
              .ok (some newTask.id,
                   { db with tasks := db.tasks ++ [newTask], nextId := db.nextId + 1 },
                   wc + 1)
          | none => .ok (none, db, wc)
      | none => .ok (none, db, wc)
    match resolved with
    | .error msg => .error msg
    | .ok (taskId, db1, wc1) =>
      let row : PlanBlock :=
        { id := 0, plan_id := planId, task_id := taskId,
          title := b.title.getD ((b.task.bind BlockTaskReq.title).getD "Untitled"),
          notes := b.notes, start_ts := b.startTs, end_ts := b.endTs,
          location := b.location, completed := false,
          order_index := b.orderIndex.getD (Int.ofNat i),
          created_at := 0 }
      match buildBlocksTool oracle userId planId rest (i + 1) db1 wc1 with
      | .error msg => .error msg
      | .ok (rows, db2, wc2) => .ok (row :: rows, db2, wc2)

/-- `createPlan`'s confirmation payload. -/
structure AiPlanOut where
  id : Nat
  title : String
deriving DecidableEq, Repr

/-- `aiTools.createPlan`: one transaction around plan insert, per-block
loop and bulk block insert; a throw rolls the whole unit back. -/
def createPlan (oracle : Oracle) (db : DB) (userId : Nat) (input : CreatePlanInput) :
    Except String AiPlanOut × DB :=
  if input.title.length < 1 then (.error "invalid input", db)
  else
    let txRes : Except String (AiPlanOut × DB) :=
      if oracle 0 then .error "store error"
      else
        let planRow : Plan :=
          { id := db.nextId, user_id := userId, title := input.title,
            description := input.description, metadata := input.metadata.getD [],
            created_at := db.now, updated_at := db.now,
            is_template := input.isTemplate.getD false }
        let db1 : DB := { db with plans := db.plans ++ [planRow], nextId := db.nextId + 1 }
        match buildBlocksTool oracle userId planRow.id input.blocks 0 db1 1 with
        | .error msg => .error msg
        | .ok (rows, db2, wc2) =>
          if oracle wc2 then .error "store error"
          else .ok (⟨planRow.id, planRow.title⟩, PlanRoute.bulkInsertBlocks db2 rows)
    match txRes with
    | .ok (out, db') => (.ok out, db')
    | .error msg => (.error msg, db)

/-- `addPlanBlock` input. -/
structure AddPlanBlockInput where
  planId : Nat := 0
  title : Option String := none
  notes : Option String := none
  startTs : Int := 0
  endTs : Int := 0
  location : Option String := none
  orderIndex : Option Int := none
  task : Option BlockTaskReq := none
deriving DecidableEq, Repr

/-- `addPlanBlock`'s confirmation payload. -/
structure AiBlockOut where
  id : Nat
  title : String
deriving DecidableEq, Repr

/-- `aiTools.addPlanBlock`: plan ownership check, then — with no
transaction — an optional inline task insert and the block insert as
separate statements; a supplied task id is used as-is, and start/end
are never compared. -/
def addPlanBlock (oracle : Oracle) (db : DB) (userId : Nat) (input : AddPlanBlockInput) :
    Except String AiBlockOut × DB :=
  if !(db.plans.any fun p => p.id == input.planId && p.user_id == userId) then
    (.error "Plan not found", db)
  else
    let resolved : Except String (Option Nat × DB × Nat) :=
      match input.task with
      | some t =>
        match t.id with
        | some tid => .ok (some tid, db, 0)
        | none =>
          match t.title with
          | some ttl =>
            if ttl = "" then .ok (none, db, 0)
            else if oracle 0 then .error "store error"
            else
              let newTask := mkInlineTask db userId ttl t
              .ok (some newTask.id,
                   { db with tasks := db.tasks ++ [newTask], nextId := db.nextId + 1 },
                   1)
          | none => .ok (none, db, 0)
      | none => .ok (none, db, 0)
    match resolved with
    | .error msg => (.error msg, db)
    | .ok (taskId, db1, wc) =>
      if oracle wc then (.error "store error", db1)
      else
        let row : PlanBlock :=
          { id := db1.nextId, plan_id := input.planId, task_id := taskId,
            title := input.title.getD ((input.task.bind BlockTaskReq.title).getD "Untitled"),
            notes := input.notes, start_ts := input.startTs, end_ts := input.endTs,
            location := input.location, completed := false,
            order_index := input.orderIndex.getD 0,
            created_at := db1.now }
        (.ok ⟨db1.nextId, row.title⟩,
         { db1 with planBlocks := db1.planBlocks ++ [row], nextId := db1.nextId + 1 })

end aiTools

/-! ## Concrete stores and requests used by witnesses and counterexamples -/

/-- Concrete instance for C10: one already-deleted task owned by the
caller. -/
def c10db : DB :=
  { tasks := [{ id := 1, user_id := 7, title := "laundry", deleted := true }],
    nextId := 2, now := 5 }

/-- Concrete instance for C5: a task, a plan and a block that all exist
but belong to user 2, addressed by caller 1. -/
def c5db : DB :=
  { tasks := [{ id := 1, user_id := 2, title := "theirs" }],
    plans := [{ id := 3, user_id := 2, title := "their plan" }],
    planBlocks := [{ id := 4, plan_id := 3, title := "their block", start_ts := 0, end_ts := 1 }],
    nextId := 5, now := 0 }

/-- Concrete instance for C9: one task, updated with an empty body. -/
def c9db : DB := { tasks := [{ id := 1, user_id := 7, title := "write spec" }], nextId := 2 }

/-- Oracle failing the second write statement of a request. -/
def failSecond : Oracle := fun k => k == 1

/-- Concrete store for the C3 counterexample: one plan owned by the
caller, no tasks. -/
def c3db : DB := { plans := [{ id := 1, user_id := 1, title := "P" }], nextId := 2 }

/-- Block-addition body with an inline task. -/
def c3body : PlanBlockRoute.AddBlockBody :=
  { startTs := some 0, endTs := some 5, task := some { title := some "Gym" } }

/-- Store for C1: task 1 exists but belongs to user 2. -/
def c1db : DB := { tasks := [{ id := 1, user_id := 2, title := "their task" }], nextId := 2 }

/-- Plan-creation request by user 1 referencing task 1 by id. -/
def c1body : PlanRoute.CreatePlanRequest :=
  { title := "P",
    blocks := [{ start_ts := some 0, end_ts := some 10, task := some { id := some 1 } }] }

/-- Tool creation input with a reversed schedule. -/
def c8input : aiTools.CreateTaskInput :=
  { title := "T", scheduledStart := some 100, scheduledEnd := some 50 }

/-- Store for the C8 PATCH counterexample: a task with a valid
schedule. -/
def c8db : DB :=
  { tasks := [{ id := 1, user_id := 7, title := "t",
                scheduled_start := some 100, scheduled_end := some 200 }],
    nextId := 2 }

/-- PATCH body setting only the scheduled end, below the stored start. -/
def c8patch : TaskIdRoute.PatchBody := { scheduledEnd := some 50 }

/-- Plan-creation request with a zero-length block (end equals start). -/
def c2body : PlanRoute.CreatePlanRequest :=
  { title := "P", blocks := [{ start_ts := some 100, end_ts := some 100 }] }

/-- Tool plan input with a reversed block interval. -/
def c2input : aiTools.CreatePlanInput :=
  { title := "P", blocks := [{ startTs := 100, endTs := 50 }] }

/-- Store for C4: a soft-deleted task owned by the caller. -/
def c4db : DB :=
  { tasks := [{ id := 1, user_id := 1, title := "gone", deleted := true }], nextId := 2 }

/-- The plan row inserted by `POSTtx` for caller `u`. -/
def mkPlanRow (db : DB) (u : Nat) (body : PlanRoute.CreatePlanRequest) : Plan :=
  { id := db.nextId, user_id := u, title := body.title,
    description := body.description,
    metadata := body.metadata.getD [],
    created_at := db.now, updated_at := db.now,
    is_template := body.is_template.getD false }

/-- Store for C6: one existing plan owned by the caller. -/
def c6db : DB := { plans := [{ id := 0, user_id := 1, title := "Q" }], nextId := 1 }

/-- Two-block plan-creation request without order indexes. -/
def c6body : PlanRoute.CreatePlanRequest :=
  { title := "Sat",
    blocks := [{ start_ts := some 0, end_ts := some 5 },
               { start_ts := some 5, end_ts := some 9 }] }

/-- Index-free block addition to the existing plan. -/
def c6input : aiTools.AddPlanBlockInput := { planId := 0, startTs := 0, endTs := 1 }

/-- Store for C7: one task and one plan owned by the caller. -/
def c7db : DB :=
  { tasks := [{ id := 0, user_id := 1, title := "Existing" }],
    plans := [{ id := 1, user_id := 1, title := "Q" }], nextId := 2 }

/-- Plan-creation request exercising all three title fallbacks plus a
task-by-id block. -/
def c7body : PlanRoute.CreatePlanRequest :=
  { title := "P",
    blocks :=
      [{ title := some "Explicit", start_ts := some 0, end_ts := some 1 },
       { start_ts := some 0, end_ts := some 1, task := some { title := some "TaskTitle" } },
       { start_ts := some 0, end_ts := some 1 },
       { start_ts := some 0, end_ts := some 1, task := some { id := some 0 } }] }

/-- Block-addition body with only an inline task title. -/
def c7abody : PlanBlockRoute.AddBlockBody :=
  { startTs := some 3, endTs := some 4, task := some { title := some "Gym" } }

/-! ## List helper lemmas -/

theorem mem_insertSorted {le : α → α → Bool} {a x : α} {l : List α} :
    a ∈ insertSorted le x l ↔ a = x ∨ a ∈ l := by
  induction l with
  | nil => simp [insertSorted]
  | cons b bs ih =>
    simp only [insertSorted]
    split
    · simp [List.mem_cons]
    · simp only [List.mem_cons, ih]
      tauto

theorem mem_sortRows {le : α → α → Bool} {a : α} {l : List α} :
    a ∈ sortRows le l ↔ a ∈ l := by
  induction l with
  | nil => simp [sortRows]
  | cons b bs ih => simp [sortRows, mem_insertSorted, ih]

theorem sortRows_of_pairwise {le : α → α → Bool} {l : List α}
    (h : l.Pairwise fun a b => le a b = true) : sortRows le l = l := by
  induction l with
  | nil => rfl
  | cons b bs ih =>
    rcases List.pairwise_cons.mp h with ⟨hb, hbs⟩
    rw [sortRows, ih hbs]
    cases bs with
    | nil => rfl
    | cons c cs => simp [insertSorted, hb c (by simp)]

theorem map_id_of {f : α → α} {l : List α} (h : ∀ x ∈ l, f x = x) : l.map f = l := by
  induction l with
  | nil => rfl
  | cons a as ih =>
    simp only [List.map_cons, h a (List.mem_cons_self a as)]
    rw [ih fun x hx => h x (List.mem_cons_of_mem a hx)]

/-- Setting `deleted := true` is the identity on an already
soft-deleted row. -/
theorem setDeleted_eq_self {t : Task} (h : t.deleted = true) :
    ({ t with deleted := true } : Task) = t := by
  cases t
  simp_all

/-! ## C10 -/

/-- C10: soft-deleting a task that the caller owns and that is already
soft-deleted succeeds again with the same success response (HTTP
DELETE, and `ok` for the tool) and leaves the stored rows unchanged:
the `deleted` flag stays true and no other field moves. -/
theorem C10_delete_idempotent (db : DB) (u tid : Nat)
    (hall : ∀ t ∈ db.tasks, t.id = tid → t.user_id = u → t.deleted = true)
    (hex : ∃ t ∈ db.tasks, t.id = tid ∧ t.user_id = u) :
    TaskIdRoute.DELETE db u tid
      = ({ status := 200, error := none, message := some "Task deleted successfully" }, db)
    ∧ aiTools.deleteTask db u tid = (.ok (), db) := by
  obtain ⟨t0, ht0, hid0, hu0⟩ := hex
  have hcount : db.tasks.countP (fun t => t.id == tid && t.user_id == u) ≠ 0 := by
    have hpos : 0 < db.tasks.countP (fun t => t.id == tid && t.user_id == u) :=
      List.countP_pos_iff.mpr ⟨t0, ht0, by simp [hid0, hu0]⟩
    omega
  have hmap : (db.tasks.map fun t =>
      if t.id == tid && t.user_id == u then { t with deleted := true } else t) = db.tasks := by
    apply map_id_of
    intro t ht
    by_cases hc : (t.id == tid && t.user_id == u) = true
    · have hdel : t.deleted = true := by
        have hsplit := (Bool.and_eq_true _ _).mp hc
        exact hall t ht (by simpa using hsplit.1) (by simpa using hsplit.2)
      simp only [hc, if_true]
      exact setDeleted_eq_self hdel
    · simp only [Bool.not_eq_true] at hc
      simp [hc]
  have hbeq : (db.tasks.countP (fun t => t.id == tid && t.user_id == u) == 0) = false := by
    simpa [Nat.beq_eq_true_eq] using hcount
  constructor
  · simp only [TaskIdRoute.DELETE, hmap, hbeq, Bool.false_eq_true, if_false]
  · simp only [aiTools.deleteTask, hmap, hbeq, Bool.false_eq_true, if_false]

/-- Witness for C10 at a concrete store. -/
theorem C10_delete_idempotent_witness :
    TaskIdRoute.DELETE c10db 7 1
      = ({ status := 200, error := none, message := some "Task deleted successfully" }, c10db)
    ∧ aiTools.deleteTask c10db 7 1 = (.ok (), c10db) :=
  C10_delete_idempotent c10db 7 1 (by decide) (by decide)

/-! ## C5 -/

/-- C5: every operation addressing a task, plan, or block id answers a
single constant not-found response (404, fixed error string, store
unmodified) whenever no row matches both the id and the caller — which
covers the id belonging to a different user and the id not existing at
all, making the two cases indistinguishable, and never surfaces a
distinct forbidden status. -/
theorem C5_foreign_id_not_found (db : DB) (u tid pid bid : Nat)
    (htask : ∀ t ∈ db.tasks, t.id = tid → t.user_id ≠ u)
    (hplan : ∀ p ∈ db.plans, p.id = pid → p.user_id ≠ u)
    (hblock : ∀ b ∈ db.planBlocks, b.id = bid → b.plan_id = pid →
        ∀ p ∈ db.plans, p.id = b.plan_id → p.user_id ≠ u) :
    TaskIdRoute.GET db u tid = { status := 404, error := some "Task not found" }
    ∧ TaskIdRoute.DELETE db u tid
        = ({ status := 404, error := some "Task not found or could not be deleted" }, db)
    ∧ (∀ body, TaskIdRoute.PATCH db u tid body
        = ({ status := 404, error := some "Task not found or could not be updated" }, db))
    ∧ PlanIdRoute.GET db u pid = ({ status := 404, error := some "Plan not found" }, none)
    ∧ PlanIdRoute.DELETE db u pid
        = ({ status := 404, error := some "Plan not found or could not be deleted" }, db)
    ∧ BlockIdRoute.GET db u pid bid = { status := 404, error := some "Block not found" }
    ∧ (∀ input, input.taskId = tid →
        aiTools.updateTask db u input = (.error "Task not found", db))
    ∧ aiTools.deleteTask db u tid = (.error "Task not found", db) := by
  have hnotask : ∀ t ∈ db.tasks, ¬ ((t.id == tid && t.user_id == u) = true) := by
    intro t ht hc
    have hsplit := (Bool.and_eq_true _ _).mp hc
    exact htask t ht (by simpa using hsplit.1) (by simpa using hsplit.2)
  have hfalse : ∀ t ∈ db.tasks, (t.id == tid && t.user_id == u) = false :=
    fun t ht => Bool.eq_false_iff.mpr (hnotask t ht)
  have hcount0 : db.tasks.countP (fun t => t.id == tid && t.user_id == u) = 0 :=
    List.countP_eq_zero.mpr hnotask
  have hmapid : (db.tasks.map fun t =>
      if t.id == tid && t.user_id == u then { t with deleted := true } else t) = db.tasks :=
    map_id_of fun t ht => by rw [hfalse t ht]; rfl
  refine ⟨?_, ?_, ?_, ?_, ?_, ?_, ?_, ?_⟩
  · have hfil : (db.tasks.filter fun t =>
        t.id == tid && t.user_id == u && t.deleted == false) = [] := by
      apply List.filter_eq_nil_iff.mpr
      intro t ht hc
      have hsplit := (Bool.and_eq_true _ _).mp hc
      exact hnotask t ht hsplit.1
    simp only [TaskIdRoute.GET]
    rw [hfil]
    rfl
  · simp only [TaskIdRoute.DELETE]
    rw [hcount0, hmapid]
    rfl
  · intro body
    have hmapp : (db.tasks.map fun t =>
        if t.id == tid && t.user_id == u then TaskIdRoute.applyPatch body t else t)
          = db.tasks :=
      map_id_of fun t ht => by rw [hfalse t ht]; rfl
    simp only [TaskIdRoute.PATCH]
    rw [hcount0, hmapp]
    rfl
  · have hfind : db.plans.find? (fun p => p.id == pid && p.user_id == u) = none := by
      apply List.find?_eq_none.mpr
      intro p hp hc
      have hsplit := (Bool.and_eq_true _ _).mp hc
      exact hplan p hp (by simpa using hsplit.1) (by simpa using hsplit.2)
    simp only [PlanIdRoute.GET]
    rw [hfind]
  · have hfil : (db.plans.filter fun p => p.id == pid && p.user_id == u) = [] := by
      apply List.filter_eq_nil_iff.mpr
      intro p hp hc
      have hsplit := (Bool.and_eq_true _ _).mp hc
      exact hplan p hp (by simpa using hsplit.1) (by simpa using hsplit.2)
    simp only [PlanIdRoute.DELETE]
    rw [hfil]
    rfl
  · have hfil : (db.planBlocks.filter fun b =>
        b.id == bid && b.plan_id == pid &&
          db.plans.any fun p => p.id == b.plan_id && p.user_id == u) = [] := by
      apply List.filter_eq_nil_iff.mpr
      intro b hb hc
      have hsplit := (Bool.and_eq_true _ _).mp hc
      have hids := (Bool.and_eq_true _ _).mp hsplit.1
      obtain ⟨p, hp, hpc⟩ := List.any_eq_true.mp hsplit.2
      have hpcs := (Bool.and_eq_true _ _).mp hpc
      exact hblock b hb (by simpa using hids.1) (by simpa using hids.2)
        p hp (by simpa using hpcs.1) (by simpa using hpcs.2)
    simp only [BlockIdRoute.GET]
    rw [hfil]
  · intro input hinput
    subst hinput
    have hno : ∀ t ∈ db.tasks, ¬ ((t.id == input.taskId && t.user_id == u) = true) :=
      hnotask
    have hc0 : db.tasks.countP (fun t => t.id == input.taskId && t.user_id == u) = 0 :=
      List.countP_eq_zero.mpr hno
    have hmapu : (db.tasks.map fun t =>
        if t.id == input.taskId && t.user_id == u then aiTools.applyUpdate input t else t)
          = db.tasks :=
      map_id_of fun t ht => by rw [Bool.eq_false_iff.mpr (hno t ht)]; rfl
    simp only [aiTools.updateTask]
    rw [hc0, hmapu]
    rfl
  · simp only [aiTools.deleteTask]
    rw [hcount0, hmapid]
    rfl

/-- Witness for C5 at a concrete store with foreign-owned rows. -/
theorem C5_foreign_id_not_found_witness :
    TaskIdRoute.GET c5db 1 1 = { status := 404, error := some "Task not found" }
    ∧ TaskIdRoute.DELETE c5db 1 1
        = ({ status := 404, error := some "Task not found or could not be deleted" }, c5db)
    ∧ PlanIdRoute.GET c5db 1 3 = ({ status := 404, error := some "Plan not found" }, none)
    ∧ BlockIdRoute.GET c5db 1 3 4 = { status := 404, error := some "Block not found" } := by
  have h := C5_foreign_id_not_found c5db 1 1 3 4 (by decide) (by decide) (by decide)
  exact ⟨h.1, h.2.1, h.2.2.2.1, h.2.2.2.2.2.1⟩

/-! ## C9 -/

/-- C9: for both task-update paths (HTTP PATCH and the assistant's
`updateTask`), every row keeps its prior value in each column whose
camelCase request field is absent, and a task's owner (`user_id`) and
its `deleted` flag — columns with no request field at all, like the
timestamps — are never changed by an update. -/
theorem C9_update_frame (db : DB) (u tid : Nat) (body : TaskIdRoute.PatchBody)
    (input : aiTools.UpdateTaskInput) :
    (∀ t ∈ db.tasks, ∃ t' ∈ (TaskIdRoute.PATCH db u tid body).2.tasks,
      t'.id = t.id ∧ t'.user_id = t.user_id ∧ t'.deleted = t.deleted
      ∧ t'.created_at = t.created_at ∧ t'.updated_at = t.updated_at
      ∧ t'.completed_at = t.completed_at
      ∧ (body.title = none → t'.title = t.title)
      ∧ (body.description = none → t'.description = t.description)
      ∧ (body.priority = none → t'.priority = t.priority)
      ∧ (body.status = none → t'.status = t.status)
      ∧ (body.dueDate = none → t'.due_date = t.due_date)
      ∧ (body.scheduledStart = none → t'.scheduled_start = t.scheduled_start)
      ∧ (body.scheduledEnd = none → t'.scheduled_end = t.scheduled_end)
      ∧ (body.rawInput = none → t'.raw_input = t.raw_input)
      ∧ (body.parserConfidence = none → t'.parser_confidence = t.parser_confidence)
      ∧ (body.semanticMetadata = none → t'.semantic_metadata = t.semantic_metadata))
    ∧ (∀ t ∈ db.tasks, ∃ t' ∈ (aiTools.updateTask db u input).2.tasks,
      t'.id = t.id ∧ t'.user_id = t.user_id ∧ t'.deleted = t.deleted
      ∧ t'.created_at = t.created_at ∧ t'.updated_at = t.updated_at
      ∧ t'.completed_at = t.completed_at
      ∧ (input.title = none → t'.title = t.title)
      ∧ (input.description = none → t'.description = t.description)
      ∧ (input.priority = none → t'.priority = t.priority)
      ∧ (input.status = none → t'.status = t.status)
      ∧ (input.dueDate = none → t'.due_date = t.due_date)
      ∧ (input.scheduledStart = none → t'.scheduled_start = t.scheduled_start)
      ∧ (input.scheduledEnd = none → t'.scheduled_end = t.scheduled_end)
      ∧ (input.rawInput = none → t'.raw_input = t.raw_input)
      ∧ (input.parserConfidence = none → t'.parser_confidence = t.parser_confidence)
      ∧ (input.semanticMetadata = none → t'.semantic_metadata = t.semantic_metadata)) := by
  constructor
  · intro t ht
    have h2 : (TaskIdRoute.PATCH db u tid body).2.tasks
        = db.tasks.map (fun t =>
            if t.id == tid && t.user_id == u then TaskIdRoute.applyPatch body t else t) := by
      simp only [TaskIdRoute.PATCH]
      split <;> rfl
    refine ⟨if t.id == tid && t.user_id == u then TaskIdRoute.applyPatch body t else t,
      ?_, ?_⟩
    · rw [h2]
      exact List.mem_map_of_mem _ ht
    · by_cases hc : (t.id == tid && t.user_id == u) = true
      · rw [if_pos hc]
        refine ⟨rfl, rfl, rfl, rfl, rfl, rfl, ?_, ?_, ?_, ?_, ?_, ?_, ?_, ?_, ?_, ?_⟩ <;>
          (intro h; simp [TaskIdRoute.applyPatch, h])
      · rw [if_neg hc]
        exact ⟨rfl, rfl, rfl, rfl, rfl, rfl, fun _ => rfl, fun _ => rfl, fun _ => rfl,
          fun _ => rfl, fun _ => rfl, fun _ => rfl, fun _ => rfl, fun _ => rfl,
          fun _ => rfl, fun _ => rfl⟩
  · intro t ht
    have h2 : (aiTools.updateTask db u input).2.tasks
        = db.tasks.map (fun t =>
            if t.id == input.taskId && t.user_id == u then aiTools.applyUpdate input t else t) := by
      simp only [aiTools.updateTask]
      split <;> rfl
    refine ⟨if t.id == input.taskId && t.user_id == u then aiTools.applyUpdate input t else t,
      ?_, ?_⟩
    · rw [h2]
      exact List.mem_map_of_mem _ ht
    · by_cases hc : (t.id == input.taskId && t.user_id == u) = true
      · rw [if_pos hc]
        refine ⟨rfl, rfl, rfl, rfl, rfl, rfl, ?_, ?_, ?_, ?_, ?_, ?_, ?_, ?_, ?_, ?_⟩ <;>
          (intro h; simp [aiTools.applyUpdate, h])
      · rw [if_neg hc]
        exact ⟨rfl, rfl, rfl, rfl, rfl, rfl, fun _ => rfl, fun _ => rfl, fun _ => rfl,
          fun _ => rfl, fun _ => rfl, fun _ => rfl, fun _ => rfl, fun _ => rfl,
          fun _ => rfl, fun _ => rfl⟩

/-- Witness for C9: an all-absent PATCH body leaves owner, deleted flag
and title of the stored row unchanged. -/
theorem C9_update_frame_witness :
    ∃ t' ∈ (TaskIdRoute.PATCH c9db 7 1 {}).2.tasks,
      t'.id = 1 ∧ t'.user_id = 7 ∧ t'.deleted = false ∧ t'.title = "write spec" := by
  obtain ⟨t', hmem, hp⟩ := (C9_update_frame c9db 7 1 {} {}).1
    ({ id := 1, user_id := 7, title := "write spec" } : Task) (by decide)
  exact ⟨t', hmem, hp.1, hp.2.1, hp.2.2.1, hp.2.2.2.2.2.2.1 rfl⟩

/-! ## C3 -/

/-- C3 (amended): plan creation — the HTTP endpoint and the assistant
tool — executes as one all-or-nothing transaction: under every
write-failure oracle the operation either reports success (201 / ok)
or leaves the store exactly as it was, never a partial state.  Block
addition is not such a unit (see the counterexample). -/
theorem C3_plan_creation_atomic (oracle : Oracle) (db : DB) (u : Nat)
    (body : PlanRoute.CreatePlanRequest) (input : aiTools.CreatePlanInput) :
    ((PlanRoute.POST oracle db u body).2 = db
      ∨ (PlanRoute.POST oracle db u body).1.status = 201)
    ∧ ((aiTools.createPlan oracle db u input).2 = db
      ∨ ∃ out, (aiTools.createPlan oracle db u input).1 = .ok out) := by
  constructor
  · simp only [PlanRoute.POST]
    split
    · exact Or.inl rfl
    split
    · exact Or.inl rfl
    split
    · exact Or.inl rfl
    split
    · exact Or.inr rfl
    split
    · exact Or.inl rfl
    · exact Or.inl rfl
  · simp only [aiTools.createPlan]
    split
    · exact Or.inl rfl
    split
    · exact Or.inr ⟨_, rfl⟩
    · exact Or.inl rfl

/-- Counterexample to C3 as stated: adding a block with an
inline-created task is not all-or-nothing — when the block insert (the
second write of the unit) fails, the operation reports 500 yet the
inline task row persists and no block row exists. -/
theorem C3_addblock_not_atomic :
    (PlanBlockRoute.POST failSecond c3db 1 1 c3body).1.status = 500
    ∧ (PlanBlockRoute.POST failSecond c3db 1 1 c3body).2.tasks.map Task.title = ["Gym"]
    ∧ c3db.tasks = []
    ∧ (PlanBlockRoute.POST failSecond c3db 1 1 c3body).2.planBlocks = [] := by decide

/-! ## C1 -/

/-- C1 evaluated at the failing input: the batch check before commit
matches referenced ids against the whole task table (no owner
condition), so a block referencing a task owned by user 2 passes for
caller 1 and the operation commits — 201, a plan row and a block row
written, the block pointing at the foreign task — instead of the
bad-request with no rows that the claim requires. -/
theorem C1_foreign_task_ref_commits :
    (PlanRoute.POST noFail c1db 1 c1body).1.status = 201
    ∧ (PlanRoute.POST noFail c1db 1 c1body).2.plans.map Plan.user_id = [1]
    ∧ (PlanRoute.POST noFail c1db 1 c1body).2.planBlocks.map PlanBlock.task_id = [some 1]
    ∧ (∀ t ∈ c1db.tasks, t.user_id ≠ 1) := by decide

/-! ## C8 -/

/-- C8 (amended): the HTTP task-creation endpoint enforces
end-after-start — when both scheduled bounds are present in the request
and scheduledEnd ≤ scheduledStart, the zod refinement fails, the
request is rejected with 400 and no row is written.  The update paths
and the tool/inline creation paths perform no such check (see the
counterexample). -/
theorem C8_http_create_rejects_bad_schedule (db : DB) (u : Nat)
    (body : TasksRoute.CreateTaskBody) (s e : Int)
    (hs : body.scheduledStart = some s) (he : body.scheduledEnd = some e)
    (hle : e ≤ s) :
    TasksRoute.POST db u body = ({ status := 400, error := some "Invalid request" }, db) := by
  have hbad : TasksRoute.createTaskSchemaOk body = false := by
    simp only [TasksRoute.createTaskSchemaOk, hs, he]
    have hdec : decide (e > s) = false := decide_eq_false_iff_not.mpr (by omega)
    simp [hdec]
  simp [TasksRoute.POST, hbad]

/-- Witness for C8 (amended) at a concrete request. -/
theorem C8_http_create_rejects_bad_schedule_witness :
    TasksRoute.POST ({} : DB) 7
        { title := "T", scheduledStart := some 100, scheduledEnd := some 100 }
      = ({ status := 400, error := some "Invalid request" }, ({} : DB)) :=
  C8_http_create_rejects_bad_schedule ({} : DB) 7
    { title := "T", scheduledStart := some 100, scheduledEnd := some 100 }
    100 100 rfl rfl (by omega)

/-- Counterexample to C8 as stated: the assistant's `createTask`
accepts and stores scheduledEnd earlier than scheduledStart, and the
HTTP PATCH lets an update leave the row with end before start — the
invariant does not hold after every task operation. -/
theorem C8_schedule_invariant_violated :
    (aiTools.createTask ({} : DB) 7 c8input).1
        = .ok ⟨0, "T", none, TaskPriority.medium, TaskStatusE.pending⟩
    ∧ (aiTools.createTask ({} : DB) 7 c8input).2.tasks.map
        (fun t => (t.scheduled_start, t.scheduled_end)) = [(some 100, some 50)]
    ∧ (TaskIdRoute.PATCH c8db 7 1 c8patch).1.status = 200
    ∧ (TaskIdRoute.PATCH c8db 7 1 c8patch).2.tasks.map
        (fun t => (t.scheduled_start, t.scheduled_end)) = [(some 100, some 50)] :=
  ⟨rfl, by decide, by decide, by decide⟩

/-! ## C2 -/

/-- When some block has both dates present with end strictly before
start, the validation loop reports an error (possibly for an earlier
block, but always an error). -/
theorem validateBlocks_some_of_bad {blocks : List PlanRoute.BlockReq}
    {b : PlanRoute.BlockReq} (hmem : b ∈ blocks) {s e : Int}
    (hs : b.start_ts = some s) (he : b.end_ts = some e) (hlt : e < s) :
    ∀ i, ∃ msg, PlanRoute.validateBlocks blocks i = some msg := by
  induction blocks with
  | nil => cases hmem
  | cons hd tl ih =>
    intro i
    rcases List.mem_cons.mp hmem with hhd | hmemtl
    · subst hhd
      simp only [PlanRoute.validateBlocks, hs, he]
      rw [if_pos hlt]
      exact ⟨_, rfl⟩
    · simp only [PlanRoute.validateBlocks]
      cases hhs : hd.start_ts with
      | none => exact ⟨_, rfl⟩
      | some s0 =>
        cases hhe : hd.end_ts with
        | none => exact ⟨_, rfl⟩
        | some e0 =>
          dsimp only
          by_cases hlt0 : e0 < s0
          · rw [if_pos hlt0]
            exact ⟨_, rfl⟩
          · rw [if_neg hlt0]
            exact ih hmemtl (i + 1)

/-- C2 (amended): the HTTP plan-creation and block-addition endpoints
fail with a 400 validation error and write no rows whenever a
submitted block's end_ts is strictly earlier than its start_ts; equal
timestamps are accepted, and the assistant-tool plan paths perform no
start/end ordering check at all (see the counterexample). -/
theorem C2_strict_past_end_rejected (oracle : Oracle) (db : DB) (u planId : Nat)
    (body : PlanRoute.CreatePlanRequest) (abody : PlanBlockRoute.AddBlockBody)
    (b : PlanRoute.BlockReq) (hmem : b ∈ body.blocks)
    (s e : Int) (hs : b.start_ts = some s) (he : b.end_ts = some e) (hlt : e < s)
    (s2 e2 : Int) (hs2 : abody.startTs = some s2) (he2 : abody.endTs = some e2)
    (hlt2 : e2 < s2) :
    ((PlanRoute.POST oracle db u body).1.status = 400
      ∧ (PlanRoute.POST oracle db u body).2 = db)
    ∧ PlanBlockRoute.POST oracle db u planId abody
        = ({ status := 400, error := some "endTs must be after startTs" }, db) := by
  constructor
  · simp only [PlanRoute.POST]
    by_cases ht : body.title = ""
    · rw [if_pos ht]
      exact ⟨rfl, rfl⟩
    · rw [if_neg ht]
      have hne : body.blocks.isEmpty = false := by
        cases hb : body.blocks with
        | nil => rw [hb] at hmem; cases hmem
        | cons x xs => rfl
      rw [hne]
      obtain ⟨msg, hv⟩ := validateBlocks_some_of_bad hmem hs he hlt 0
      rw [hv]
      exact ⟨rfl, rfl⟩
  · simp only [PlanBlockRoute.POST, hs2, he2]
    rw [if_pos hlt2]

/-- Witness for C2 (amended): a reversed interval is rejected by both
endpoints with no rows written. -/
theorem C2_strict_past_end_rejected_witness :
    ((PlanRoute.POST noFail ({} : DB) 1
        { title := "P", blocks := [{ start_ts := some 10, end_ts := some 0 }] }).1.status = 400
      ∧ (PlanRoute.POST noFail ({} : DB) 1
        { title := "P", blocks := [{ start_ts := some 10, end_ts := some 0 }] }).2 = ({} : DB))
    ∧ PlanBlockRoute.POST noFail ({} : DB) 1 1
        { startTs := some 10, endTs := some 0 }
        = ({ status := 400, error := some "endTs must be after startTs" }, ({} : DB)) :=
  C2_strict_past_end_rejected noFail ({} : DB) 1 1
    { title := "P", blocks := [{ start_ts := some 10, end_ts := some 0 }] }
    { startTs := some 10, endTs := some 0 }
    { start_ts := some 10, end_ts := some 0 } (by simp)
    10 0 rfl rfl (by omega) 10 0 rfl rfl (by omega)

/-- Counterexample to C2 as stated: with end_ts equal to start_ts the
HTTP endpoint commits (201) and writes the block, and the assistant
tool commits even a block whose end is strictly before its start. -/
theorem C2_nonstrict_accepted :
    (PlanRoute.POST noFail ({} : DB) 1 c2body).1.status = 201
    ∧ (PlanRoute.POST noFail ({} : DB) 1 c2body).2.planBlocks.map
        (fun blk => (blk.start_ts, blk.end_ts)) = [(100, 100)]
    ∧ (aiTools.createPlan noFail ({} : DB) 1 c2input).2.planBlocks.map
        (fun blk => (blk.start_ts, blk.end_ts)) = [(100, 50)] := by decide

/-! ## C4 -/

/-- C4 (amended): the deleted-filtering task list endpoint and the
assistant's `listTasks` never return a soft-deleted task, and fetching
a soft-deleted task by id yields the same constant not-found response
as a nonexistent id (the by-id select filters `deleted = false`), so
the row is not retrievable there; the unfiltered list variant is
excluded (see the counterexample). -/
theorem C4_soft_deleted_hidden (db : DB) (u tid : Nat)
    (p : TasksRoute.ListParams) (lim : Nat)
    (hdel : ∀ t ∈ db.tasks, t.id = tid → t.user_id = u → t.deleted = true) :
    (∀ r ∈ (TasksRoute.GET db u p).data,
        ∃ t ∈ db.tasks, t.id = r.id ∧ t.user_id = u ∧ t.deleted = false)
    ∧ (∀ rws, aiTools.listTasks db u lim = .ok rws →
        ∀ r ∈ rws, ∃ t ∈ db.tasks, t.id = r.id ∧ t.user_id = u ∧ t.deleted = false)
    ∧ TaskIdRoute.GET db u tid = { status := 404, error := some "Task not found" } := by
  refine ⟨?_, ?_, ?_⟩
  · intro r hr
    simp only [TasksRoute.GET] at hr
    have hsorted : r ∈ sortRows (TasksRoute.rowLE p.sortBy p.sortOrder)
        ((db.tasks.filter fun t => t.user_id == u && t.deleted == false).map
          fun t => ⟨t.id, t.title, t.description⟩) := by
      have hx : r ∈ ((sortRows (TasksRoute.rowLE p.sortBy p.sortOrder)
          ((db.tasks.filter fun t => t.user_id == u && t.deleted == false).map
            fun t => ⟨t.id, t.title, t.description⟩)).drop
              ((max 1 p.page - 1) * min 100 (max 1 p.limit)).toNat).take
                ((min 100 (max 1 p.limit)).toNat + 1) := by
        split at hr
        · exact List.take_subset _ _ hr
        · exact hr
      exact List.drop_subset _ _ (List.take_subset _ _ hx)
    have hr1 := mem_sortRows.mp hsorted
    obtain ⟨t, htf, hteq⟩ := List.mem_map.mp hr1
    obtain ⟨htmem, htpred⟩ := List.mem_filter.mp htf
    have hsplit := (Bool.and_eq_true _ _).mp htpred
    refine ⟨t, htmem, ?_, by simpa using hsplit.1, by simpa using hsplit.2⟩
    rw [← hteq]
  · intro rws hok r hr
    simp only [aiTools.listTasks, Except.ok.injEq] at hok
    rw [← hok] at hr
    have hr1 := List.take_subset _ _ hr
    obtain ⟨t, htf, hteq⟩ := List.mem_map.mp hr1
    obtain ⟨htmem, htpred⟩ := List.mem_filter.mp htf
    have hsplit := (Bool.and_eq_true _ _).mp htpred
    refine ⟨t, htmem, ?_, by simpa using hsplit.1, by simpa using hsplit.2⟩
    rw [← hteq]
  · have hfil : (db.tasks.filter fun t =>
        t.id == tid && t.user_id == u && t.deleted == false) = [] := by
      apply List.filter_eq_nil_iff.mpr
      intro t ht hc
      have h1 := (Bool.and_eq_true _ _).mp hc
      have h2 := (Bool.and_eq_true _ _).mp h1.1
      have hdeleted : t.deleted = true :=
        hdel t ht (by simpa using h2.1) (by simpa using h2.2)
      have : t.deleted = false := by simpa using h1.2
      rw [hdeleted] at this
      cases this
    simp only [TaskIdRoute.GET]
    rw [hfil]
    rfl

/-- Witness for C4 (amended) at a concrete store. -/
theorem C4_soft_deleted_hidden_witness :
    TaskIdRoute.GET c4db 1 1 = { status := 404, error := some "Task not found" } :=
  (C4_soft_deleted_hidden c4db 1 1 {} 20 (by decide)).2.2

/-- Counterexample to C4 as stated: the soft-deleted task does appear
in the results of the unfiltered list variant, and the by-id fetch
errors with 404 instead of returning it. -/
theorem C4_soft_deleted_visible :
    (TasksRoute.GETall c4db 1 {}).data = [⟨1, "gone", none⟩]
    ∧ (TaskIdRoute.GET c4db 1 1).status = 404
    ∧ (∃ t ∈ c4db.tasks, t.id = 1 ∧ t.user_id = 1 ∧ t.deleted = true) := by decide

/-! ## C6 -/

/-- When every block's dates are present with end not strictly before
start, the validation loop passes. -/
theorem validateBlocks_none (blocks : List PlanRoute.BlockReq)
    (h : ∀ b ∈ blocks, ∃ s e, b.start_ts = some s ∧ b.end_ts = some e ∧ ¬ e < s) :
    ∀ i, PlanRoute.validateBlocks blocks i = none := by
  induction blocks with
  | nil => intro i; rfl
  | cons hd tl ih =>
    intro i
    obtain ⟨s, e, hs, he, hlt⟩ := h hd (List.mem_cons_self _ _)
    simp only [PlanRoute.validateBlocks, hs, he]
    rw [if_neg hlt]
    exact ih (fun b hb => h b (List.mem_cons_of_mem _ hb)) (i + 1)

/-- The per-block loop over task-free, index-free blocks issues no
write, keeps the store as is, and records each block's position as its
order index. -/
theorem buildBlocks_simple (u pid : Nat) (blocks : List PlanRoute.BlockReq)
    (hno : ∀ b ∈ blocks, b.task = none) (hoi : ∀ b ∈ blocks, b.order_index = none) :
    ∀ i db wc, ∃ rows,
      PlanRoute.buildBlocks noFail u pid blocks i db wc = .ok (rows, db, wc)
      ∧ rows.map PlanBlock.order_index
          = (List.range blocks.length).map (fun k => Int.ofNat (i + k))
      ∧ rows.map PlanBlock.plan_id = List.replicate blocks.length pid
      ∧ rows.map PlanBlock.task_id = List.replicate blocks.length none
      ∧ rows.map PlanBlock.start_ts = blocks.map (fun b => b.start_ts.getD 0)
      ∧ rows.length = blocks.length := by
  induction blocks with
  | nil => intro i db wc; exact ⟨[], rfl, rfl, rfl, rfl, rfl, rfl⟩
  | cons hd tl ih =>
    intro i db wc
    obtain ⟨rows, hrec, hio, hpl, hti, hst, hlen⟩ :=
      ih (fun b hb => hno b (List.mem_cons_of_mem _ hb))
         (fun b hb => hoi b (List.mem_cons_of_mem _ hb)) (i + 1) db wc
    have hhd := hno hd (List.mem_cons_self _ _)
    have hoihd := hoi hd (List.mem_cons_self _ _)
    simp only [PlanRoute.buildBlocks, hhd, hoihd]
    rw [hrec]
    refine ⟨_, rfl, ?_, ?_, ?_, ?_, ?_⟩
    · simp only [List.map_cons, List.length_cons, List.range_succ_eq_map,
        List.map_map, hio]
      congr 1
      apply List.map_congr_left
      simp only [List.mem_range, Function.comp_apply, Int.ofNat_eq_coe,
        Nat.succ_eq_add_one]
      intro k hk
      omega
    · simp [List.replicate_succ, hpl, hhd]
    · simp [List.replicate_succ, hti, hhd]
    · simp [hst]
    · simp [hlen]

/-- Plan creation over task-free, index-free blocks: the transaction
commits the plan row and bulk-inserts the block rows, whose order
indexes are their submission positions. -/
theorem POSTtx_simple (db : DB) (u : Nat) (body : PlanRoute.CreatePlanRequest)
    (hno : ∀ b ∈ body.blocks, b.task = none)
    (hoi : ∀ b ∈ body.blocks, b.order_index = none) :
    ∃ rows,
      PlanRoute.POSTtx noFail db u body
        = .ok (db.nextId, PlanRoute.bulkInsertBlocks
            { db with plans := db.plans ++ [mkPlanRow db u body], nextId := db.nextId + 1 } rows)
      ∧ rows.map PlanBlock.order_index = (List.range body.blocks.length).map Int.ofNat
      ∧ rows.map PlanBlock.plan_id = List.replicate body.blocks.length db.nextId
      ∧ rows.map PlanBlock.task_id = List.replicate body.blocks.length none
      ∧ rows.length = body.blocks.length := by
  obtain ⟨rows, hbb, hio, hpl, hti, hst, hlen⟩ :=
    buildBlocks_simple u db.nextId body.blocks hno hoi 0
      { db with plans := db.plans ++ [mkPlanRow db u body], nextId := db.nextId + 1 } 1
  have hids : (body.blocks.filterMap fun b => b.task.bind BlockTaskReq.id) = [] :=
    List.filterMap_eq_nil_iff.mpr (fun b hb => by rw [hno b hb]; rfl)
  refine ⟨rows, ?_, ?_, hpl, hti, hlen⟩
  · simp only [PlanRoute.POSTtx, noFail, Bool.false_eq_true, if_false, hids,
      List.length_nil, gt_iff_lt, Nat.lt_irrefl, mkPlanRow]
    simp only [mkPlanRow] at hbb
    rw [hbb]
  · rw [hio]
    apply List.map_congr_left
    intro k _
    congr 1
    omega

/-- Projecting a field untouched by the bulk-insert renaming gives the
same list as projecting the original rows. -/
theorem enum_proj_snd {β : Type} (rows : List PlanBlock) (g : PlanBlock → β)
    (f : Nat × PlanBlock → PlanBlock) (hf : ∀ pr, g (f pr) = g pr.2) :
    (rows.enum.map f).map g = rows.map g := by
  rw [List.map_map]
  have h1 : (g ∘ f) = fun pr : Nat × PlanBlock => g pr.2 := funext fun pr => hf pr
  have h2 : (fun pr : Nat × PlanBlock => g pr.2) = g ∘ Prod.snd := rfl
  rw [h1, h2, ← List.map_map, List.enum_map_snd]

/-- The ids assigned by the bulk insert are consecutive from the
current fresh counter, in insertion order. -/
theorem enum_proj_fresh_id (db1 : DB) (rows : List PlanBlock) :
    (rows.enum.map (fun pr =>
        ({ pr.2 with id := db1.nextId + pr.1, created_at := db1.now } : PlanBlock))).map
      PlanBlock.id = (List.range rows.length).map (fun k => db1.nextId + k) := by
  rw [List.map_map]
  have h1 : (PlanBlock.id ∘ fun pr : Nat × PlanBlock =>
      ({ pr.2 with id := db1.nextId + pr.1, created_at := db1.now } : PlanBlock))
        = (fun k => db1.nextId + k) ∘ Prod.fst := rfl
  rw [h1, ← List.map_map, List.enum_map_fst]

/-- C6: blocks submitted without an explicit order index store their
position in the submitted sequence as their order index, and the
subsequent by-id plan fetch returns them sorted ascending by order
index — which is submission (insertion) order, the returned ids being
the consecutively assigned ones.  The one-block addition tool likewise
stores position 0 of its singleton submission when no index is given. -/
theorem C6_default_order_is_position (db : DB) (u : Nat)
    (body : PlanRoute.CreatePlanRequest) (input : aiTools.AddPlanBlockInput)
    (hwf : db.WF) (htitle : ¬ body.title = "") (hne : body.blocks ≠ [])
    (hval : ∀ b ∈ body.blocks, ∃ s e, b.start_ts = some s ∧ b.end_ts = some e ∧ ¬ e < s)
    (hno : ∀ b ∈ body.blocks, b.task = none)
    (hoi : ∀ b ∈ body.blocks, b.order_index = none)
    (hitask : input.task = none) (hioi : input.orderIndex = none)
    (hplan : ∃ p ∈ db.plans, p.id = input.planId ∧ p.user_id = u) :
    (∃ db' fp,
      PlanRoute.POST noFail db u body = ({ status := 201, planId := some db.nextId }, db')
      ∧ PlanIdRoute.GET db' u db.nextId = ({ status := 200 }, some fp)
      ∧ fp.blocks.map (fun x => x.block.order_index)
          = (List.range body.blocks.length).map Int.ofNat
      ∧ fp.blocks.map (fun x => x.block.id)
          = (List.range body.blocks.length).map (fun k => db.nextId + 1 + k))
    ∧ (aiTools.addPlanBlock noFail db u input).2.planBlocks.map PlanBlock.order_index
        = db.planBlocks.map PlanBlock.order_index ++ [0] := by
  constructor
  · obtain ⟨rows, htx, hio, hpl, hti, hlen⟩ := POSTtx_simple db u body hno hoi
    have hne' : body.blocks.isEmpty = false := by
      cases hb : body.blocks with
      | nil => exact absurd hb hne
      | cons x xs => rfl
    have hpost : PlanRoute.POST noFail db u body
        = ({ status := 201, planId := some db.nextId },
           PlanRoute.bulkInsertBlocks
             { db with
               plans := db.plans ++ [mkPlanRow db u body]
               nextId := db.nextId + 1 } rows) := by
      simp only [PlanRoute.POST]
      rw [if_neg htitle, hne']
      simp only [Bool.false_eq_true, if_false]
      rw [validateBlocks_none body.blocks hval 0, htx]
    set db1 : DB :=
      { db with plans := db.plans ++ [mkPlanRow db u body], nextId := db.nextId + 1 }
      with hdb1
    set newRows : List PlanBlock := rows.enum.map
      (fun pr => { pr.2 with id := db1.nextId + pr.1, created_at := db1.now }) with hnewRows
    have hdbp : (PlanRoute.bulkInsertBlocks db1 rows).planBlocks
        = db.planBlocks ++ newRows := rfl
    have hdbplans : (PlanRoute.bulkInsertBlocks db1 rows).plans
        = db.plans ++ [mkPlanRow db u body] := rfl
    -- untouched projections of the freshly inserted rows
    have hnr_pl : newRows.map PlanBlock.plan_id
        = List.replicate body.blocks.length db.nextId := by
      rw [hnewRows, enum_proj_snd rows PlanBlock.plan_id
        (fun pr => { pr.2 with id := db1.nextId + pr.1, created_at := db1.now }) (fun pr => rfl), hpl]
    have hnr_ti : newRows.map PlanBlock.task_id
        = List.replicate body.blocks.length none := by
      rw [hnewRows, enum_proj_snd rows PlanBlock.task_id
        (fun pr => { pr.2 with id := db1.nextId + pr.1, created_at := db1.now }) (fun pr => rfl), hti]
    have hnr_io : newRows.map PlanBlock.order_index
        = (List.range body.blocks.length).map Int.ofNat := by
      rw [hnewRows, enum_proj_snd rows PlanBlock.order_index
        (fun pr => { pr.2 with id := db1.nextId + pr.1, created_at := db1.now }) (fun pr => rfl), hio]
    have hnr_id : newRows.map PlanBlock.id
        = (List.range body.blocks.length).map (fun k => db.nextId + 1 + k) := by
      rw [hnewRows, enum_proj_fresh_id db1 rows, hlen]
    -- the fetch of the new plan
    have hfind : ((PlanRoute.bulkInsertBlocks db1 rows).plans.find?
        fun p => p.id == db.nextId && p.user_id == u) = some (mkPlanRow db u body) := by
      rw [hdbplans, List.find?_append]
      have h1 : (db.plans.find? fun p => p.id == db.nextId && p.user_id == u) = none := by
        apply List.find?_eq_none.mpr
        intro p hp hc
        have hids := (Bool.and_eq_true _ _).mp hc
        have hlt := hwf.2.1 p hp
        have heq : p.id = db.nextId := by simpa using hids.1
        omega
      rw [h1]
      simp [mkPlanRow]
    have hfil : ((PlanRoute.bulkInsertBlocks db1 rows).planBlocks.filter
        fun b => b.plan_id == (mkPlanRow db u body).id) = newRows := by
      rw [hdbp, List.filter_append]
      have h1 : (db.planBlocks.filter fun b => b.plan_id == (mkPlanRow db u body).id) = [] := by
        apply List.filter_eq_nil_iff.mpr
        intro b hb hc
        have hlt := (hwf.2.2 b hb).2
        have heq : b.plan_id = db.nextId := by simpa [mkPlanRow] using hc
        omega
      have h2 : (newRows.filter fun b => b.plan_id == (mkPlanRow db u body).id) = newRows := by
        apply List.filter_eq_self.mpr
        intro b hb
        have hmem : b.plan_id ∈ newRows.map PlanBlock.plan_id := List.mem_map_of_mem _ hb
        rw [hnr_pl] at hmem
        have := List.eq_of_mem_replicate hmem
        simp [mkPlanRow, this]
      rw [h1, h2]
      rfl
    have hjoin : (newRows.map fun b =>
        (⟨b, b.task_id.bind fun tid =>
          (PlanRoute.bulkInsertBlocks db1 rows).tasks.find? fun t => t.id == tid⟩
            : PlanIdRoute.FetchedBlock))
        = newRows.map (fun b => ⟨b, none⟩) := by
      apply List.map_congr_left
      intro b hb
      have hmem : b.task_id ∈ newRows.map PlanBlock.task_id := List.mem_map_of_mem _ hb
      rw [hnr_ti] at hmem
      have := List.eq_of_mem_replicate hmem
      rw [this]
      rfl
    have hordmap : (newRows.map fun b => (⟨b, none⟩ : PlanIdRoute.FetchedBlock)).map
        (fun x => x.block.order_index) = (List.range body.blocks.length).map Int.ofNat := by
      rw [List.map_map]
      have h1 : ((fun x : PlanIdRoute.FetchedBlock => x.block.order_index) ∘
          fun b => (⟨b, none⟩ : PlanIdRoute.FetchedBlock)) = PlanBlock.order_index := rfl
      rw [h1, hnr_io]
    have hpair : (newRows.map fun b => (⟨b, none⟩ : PlanIdRoute.FetchedBlock)).Pairwise
        (fun a b => PlanIdRoute.blockLE a b = true) := by
      have hr : ((List.range body.blocks.length).map Int.ofNat).Pairwise
          (fun a b : Int => a ≤ b) := by
        apply (List.pairwise_map).mpr
        exact (List.pairwise_lt_range _).imp fun h => Int.ofNat_le.mpr (Nat.le_of_lt h)
      rw [← hordmap] at hr
      have hmapped := (List.pairwise_map).mp hr
      exact hmapped.imp fun h => decide_eq_true h
    have hsorted : sortRows PlanIdRoute.blockLE
        (newRows.map fun b => (⟨b, none⟩ : PlanIdRoute.FetchedBlock))
        = newRows.map (fun b => ⟨b, none⟩) := sortRows_of_pairwise hpair
    have hget : PlanIdRoute.GET (PlanRoute.bulkInsertBlocks db1 rows) u db.nextId
        = ({ status := 200 }, some ⟨mkPlanRow db u body,
            newRows.map (fun b => ⟨b, none⟩)⟩) := by
      simp only [PlanIdRoute.GET]
      rw [hfind]
      simp only []
      rw [hfil, hjoin, hsorted]
    refine ⟨PlanRoute.bulkInsertBlocks db1 rows,
      ⟨mkPlanRow db u body, newRows.map (fun b => ⟨b, none⟩)⟩, hpost, hget, hordmap, ?_⟩
    rw [List.map_map]
    have h1 : ((fun x : PlanIdRoute.FetchedBlock => x.block.id) ∘
        fun b => (⟨b, none⟩ : PlanIdRoute.FetchedBlock)) = PlanBlock.id := rfl
    rw [h1, hnr_id]
  · obtain ⟨p0, hp0, hpid0, hpu0⟩ := hplan
    have hany : (db.plans.any fun p => p.id == input.planId && p.user_id == u) = true :=
      List.any_eq_true.mpr ⟨p0, hp0, by simp [hpid0, hpu0]⟩
    simp only [aiTools.addPlanBlock, hany, hitask, hioi, noFail, Bool.not_true,
      Bool.false_eq_true, if_false]
    simp [List.map_append]

/-- Witness for C6 at a concrete store: the two submitted blocks come
back from the fetch with order indexes 0, 1 and consecutive ids, and
the added singleton block stores order index 0. -/
theorem C6_default_order_is_position_witness :
    (∃ db' fp,
      PlanRoute.POST noFail c6db 1 c6body = ({ status := 201, planId := some 1 }, db')
      ∧ PlanIdRoute.GET db' 1 1 = ({ status := 200 }, some fp)
      ∧ fp.blocks.map (fun x => x.block.order_index) = [0, 1]
      ∧ fp.blocks.map (fun x => x.block.id) = [2, 3])
    ∧ (aiTools.addPlanBlock noFail c6db 1 c6input).2.planBlocks.map
        PlanBlock.order_index = [0] := by
  obtain ⟨⟨db', fp, h1, h2, h3, h4⟩, h5⟩ :=
    C6_default_order_is_position c6db 1 c6body c6input
      (by refine ⟨?_, ?_, ?_⟩ <;> decide)
      (by decide) (by decide)
      (by
        intro b hb
        simp only [c6body, List.mem_cons, List.not_mem_nil, or_false] at hb
        rcases hb with rfl | rfl
        · exact ⟨0, 5, rfl, rfl, by omega⟩
        · exact ⟨5, 9, rfl, rfl, by omega⟩)
      (by decide) (by decide) rfl rfl
      ⟨{ id := 0, user_id := 1, title := "Q" }, by decide⟩
  exact ⟨⟨db', fp, h1, h2, h3.trans (by decide), h4.trans (by decide)⟩,
    h5.trans (by decide)⟩

/-! ## C7 -/

/-- The nullish-coalescing chain `title ?? task?.title ?? "Untitled"`
written as the case split of the claim. -/
theorem titleFallback_eq (ot : Option String) (otask : Option BlockTaskReq) :
    ot.getD ((otask.bind BlockTaskReq.title).getD "Untitled")
      = match ot, otask with
        | some x, _ => x
        | none, some t => (match t.title with | some y => y | none => "Untitled")
        | none, none => "Untitled" := by
  cases ot with
  | some x => cases otask <;> rfl
  | none =>
    cases otask with
    | none => rfl
    | some t => cases htt : t.title <;> simp [htt, Option.bind]

/-- Under a non-failing store the per-block loop always succeeds,
leaves the plan and plan-block tables untouched (it writes only
inline tasks), and collects rows whose titles follow the fallback
chain. -/
theorem buildBlocks_titles (u pid : Nat) (blocks : List PlanRoute.BlockReq) :
    ∀ i db wc, ∃ rows db' wc',
      PlanRoute.buildBlocks noFail u pid blocks i db wc = .ok (rows, db', wc')
      ∧ db'.planBlocks = db.planBlocks
      ∧ db'.plans = db.plans
      ∧ db'.now = db.now
      ∧ rows.map PlanBlock.title = blocks.map (fun b =>
          b.title.getD ((b.task.bind BlockTaskReq.title).getD "Untitled")) := by
  induction blocks with
  | nil => intro i db wc; exact ⟨[], db, wc, rfl, rfl, rfl, rfl, rfl⟩
  | cons hd tl ih =>
    intro i db wc
    cases htask : hd.task with
    | none =>
      obtain ⟨rows, db', wc', hrec, hpb, hpl, hnow, ht⟩ := ih (i + 1) db wc
      simp only [PlanRoute.buildBlocks, htask]
      rw [hrec]
      exact ⟨_, db', wc', rfl, hpb, hpl, hnow, by simp [ht, htask]⟩
    | some t =>
      cases hid : t.id with
      | some tid =>
        obtain ⟨rows, db', wc', hrec, hpb, hpl, hnow, ht⟩ := ih (i + 1) db wc
        simp only [PlanRoute.buildBlocks, htask, hid]
        rw [hrec]
        exact ⟨_, db', wc', rfl, hpb, hpl, hnow, by simp [ht, htask]⟩
      | none =>
        cases httl : t.title with
        | none =>
          obtain ⟨rows, db', wc', hrec, hpb, hpl, hnow, ht⟩ := ih (i + 1) db wc
          simp only [PlanRoute.buildBlocks, htask, hid, httl]
          rw [hrec]
          exact ⟨_, db', wc', rfl, hpb, hpl, hnow, by simp [ht, htask, httl]⟩
        | some ttl =>
          by_cases hempty : ttl = ""
          · obtain ⟨rows, db', wc', hrec, hpb, hpl, hnow, ht⟩ := ih (i + 1) db wc
            simp only [PlanRoute.buildBlocks, htask, hid, httl]
            rw [if_pos hempty]
            dsimp only
            rw [hrec]
            exact ⟨_, db', wc', rfl, hpb, hpl, hnow, by simp [ht, htask, httl]⟩
          · obtain ⟨rows, db', wc', hrec, hpb, hpl, hnow, ht⟩ :=
              ih (i + 1)
                { db with
                  tasks := db.tasks ++ [mkInlineTask db u ttl t]
                  nextId := db.nextId + 1 } (wc + 1)
            simp only [PlanRoute.buildBlocks, htask, hid, httl]
            rw [if_neg hempty]
            dsimp only [noFail]
            simp only [Bool.false_eq_true, if_false]
            rw [hrec]
            refine ⟨_, db', wc', rfl, ?_, ?_, ?_, by simp [ht, htask, httl]⟩
            · exact hpb
            · exact hpl
            · exact hnow

/-- C7: the stored title of every created block is the explicit block
title when given; otherwise the supplied task object's title when one
is given; otherwise the fixed placeholder "Untitled" — for the blocks
of a plan-creation request and for the block-addition endpoint. -/
theorem C7_block_title_fallback (db : DB) (u planId : Nat)
    (body : PlanRoute.CreatePlanRequest) (abody : PlanBlockRoute.AddBlockBody)
    (htitle : ¬ body.title = "") (hne : body.blocks ≠ [])
    (hval : ∀ b ∈ body.blocks, ∃ s e, b.start_ts = some s ∧ b.end_ts = some e ∧ ¬ e < s)
    (href : ∀ b ∈ body.blocks, ∀ tid, b.task.bind BlockTaskReq.id = some tid →
        ∃ t ∈ db.tasks, t.id = tid)
    (s2 e2 : Int) (hs2 : abody.startTs = some s2) (he2 : abody.endTs = some e2)
    (hlt2 : ¬ e2 < s2)
    (hplan2 : ∃ p ∈ db.plans, p.id = planId ∧ p.user_id = u) :
    (PlanRoute.POST noFail db u body).2.planBlocks.map PlanBlock.title
      = db.planBlocks.map PlanBlock.title
        ++ body.blocks.map (fun b =>
            match b.title, b.task with
            | some x, _ => x
            | none, some t => (match t.title with | some y => y | none => "Untitled")
            | none, none => "Untitled")
    ∧ (PlanBlockRoute.POST noFail db u planId abody).2.planBlocks.map PlanBlock.title
      = db.planBlocks.map PlanBlock.title
        ++ [match abody.title, abody.task with
            | some x, _ => x
            | none, some t => (match t.title with | some y => y | none => "Untitled")
            | none, none => "Untitled"] := by
  have hexp : body.blocks.map
      (fun b => b.title.getD ((b.task.bind BlockTaskReq.title).getD "Untitled"))
      = body.blocks.map (fun b =>
          match b.title, b.task with
          | some x, _ => x
          | none, some t => (match t.title with | some y => y | none => "Untitled")
          | none, none => "Untitled") :=
    List.map_congr_left fun b _ => titleFallback_eq b.title b.task
  constructor
  · obtain ⟨rows, db2, wc2, hbb, hpb2, hpl2, hnow2, ht⟩ :=
      buildBlocks_titles u db.nextId body.blocks 0
        { db with
          plans := db.plans ++ [mkPlanRow db u body]
          nextId := db.nextId + 1 } 1
    simp only [mkPlanRow] at hbb
    have hfind : ((body.blocks.filterMap fun b => b.task.bind BlockTaskReq.id).find?
        fun tId => !(((db.tasks.filter fun t =>
            (body.blocks.filterMap fun b => b.task.bind BlockTaskReq.id).contains t.id).map
              Task.id).contains tId)) = none := by
      apply List.find?_eq_none.mpr
      intro tid htid hcon
      obtain ⟨b, hb, hbid⟩ := List.mem_filterMap.mp htid
      obtain ⟨t, htmem, htideq⟩ := href b hb tid hbid
      have htfil : t ∈ db.tasks.filter fun t' =>
          (body.blocks.filterMap fun b => b.task.bind BlockTaskReq.id).contains t'.id :=
        List.mem_filter.mpr ⟨htmem, by rw [htideq]; exact List.elem_eq_true_of_mem htid⟩
      have hmemmap : tid ∈ (db.tasks.filter fun t' =>
          (body.blocks.filterMap fun b => b.task.bind BlockTaskReq.id).contains t'.id).map
            Task.id := htideq ▸ List.mem_map_of_mem Task.id htfil
      have hc2 : ((db.tasks.filter fun t' =>
          (body.blocks.filterMap fun b => b.task.bind BlockTaskReq.id).contains t'.id).map
            Task.id).contains tid = true := List.elem_eq_true_of_mem hmemmap
      rw [hc2] at hcon
      cases hcon
    have hne' : body.blocks.isEmpty = false := by
      cases hb : body.blocks with
      | nil => exact absurd hb hne
      | cons x xs => rfl
    have htx : PlanRoute.POSTtx noFail db u body
        = .ok (db.nextId, PlanRoute.bulkInsertBlocks db2 rows) := by
      simp only [PlanRoute.POSTtx, noFail, Bool.false_eq_true, if_false]
      by_cases h0 : 0 < (body.blocks.filterMap fun b => b.task.bind BlockTaskReq.id).length
      · rw [if_pos h0, hfind]
        dsimp only
        rw [hbb]
      · rw [if_neg h0]
        dsimp only
        rw [hbb]
    have hpost : PlanRoute.POST noFail db u body
        = ({ status := 201, planId := some db.nextId },
           PlanRoute.bulkInsertBlocks db2 rows) := by
      simp only [PlanRoute.POST]
      rw [if_neg htitle, hne']
      simp only [Bool.false_eq_true, if_false]
      rw [validateBlocks_none body.blocks hval 0, htx]
    rw [hpost]
    have hsplitpb : (PlanRoute.bulkInsertBlocks db2 rows).planBlocks
        = db2.planBlocks ++ rows.enum.map
            (fun pr => { pr.2 with id := db2.nextId + pr.1, created_at := db2.now }) := rfl
    have hpb2' : db2.planBlocks = db.planBlocks := hpb2
    rw [hsplitpb, List.map_append, hpb2',
      enum_proj_snd rows PlanBlock.title
        (fun pr => { pr.2 with id := db2.nextId + pr.1, created_at := db2.now })
        (fun pr => rfl),
      ht, hexp]
  · obtain ⟨p0, hp0, hpid0, hpu0⟩ := hplan2
    have hany : (db.plans.any fun p => p.id == planId && p.user_id == u) = true :=
      List.any_eq_true.mpr ⟨p0, hp0, by simp [hpid0, hpu0]⟩
    simp only [PlanBlockRoute.POST, hs2, he2]
    rw [if_neg hlt2]
    rw [← titleFallback_eq abody.title abody.task]
    cases htask : abody.task with
    | none => simp [hany, noFail, htask]
    | some t =>
      cases hid : t.id with
      | some tid => simp [hany, noFail, htask, hid]
      | none =>
        cases httl : t.title with
        | none => simp [hany, noFail, htask, hid, httl]
        | some ttl =>
          by_cases hempty : ttl = ""
          · simp [hany, noFail, htask, hid, httl, hempty]
          · simp [hany, noFail, htask, hid, httl, hempty]

/-- Witness for C7 at a concrete store: explicit title, task-title
fallback, placeholder, placeholder-for-id-reference; and the task
title for the added block. -/
theorem C7_block_title_fallback_witness :
    (PlanRoute.POST noFail c7db 1 c7body).2.planBlocks.map PlanBlock.title
      = ["Explicit", "TaskTitle", "Untitled", "Untitled"]
    ∧ (PlanBlockRoute.POST noFail c7db 1 1 c7abody).2.planBlocks.map PlanBlock.title
      = ["Gym"] := by
  have h := C7_block_title_fallback c7db 1 1 c7body c7abody (by decide) (by decide)
    (by
      intro b hb
      simp only [c7body, List.mem_cons, List.not_mem_nil, or_false] at hb
      rcases hb with rfl | rfl | rfl | rfl <;> exact ⟨0, 1, rfl, rfl, by omega⟩)
    (by
      intro b hb tid hbid
      simp only [c7body, List.mem_cons, List.not_mem_nil, or_false] at hb
      rcases hb with rfl | rfl | rfl | rfl <;> simp only [Option.bind] at hbid
      · cases hbid
      · cases hbid
      · cases hbid
      · exact ⟨{ id := 0, user_id := 1, title := "Existing" }, by decide,
          by cases hbid; rfl⟩)
    3 4 rfl rfl (by omega)
    ⟨{ id := 1, user_id := 1, title := "Q" }, by decide, rfl, rfl⟩
  exact ⟨h.1.trans (by decide), h.2.trans (by decide)⟩

end PersonalAgent
